import Mathlib

/-!
Verification of the worklog generation pipeline (mcp-worklog.js).

The JavaScript source is shallowly embedded: every pure computation is a
Lean function, every effectful step (child process execution, filesystem
writes, console output, process exit) is represented by explicit
environment records and result states.  ECMAScript `Date` semantics
(local-time component extraction, the `Date(y, m, d)` constructor with
field normalization, `toISOString`) are modelled on minutes-since-epoch
integers together with a fixed invocation-time zone offset `tz`
(minutes east of UTC), using a verified proleptic Gregorian calendar.
-/

namespace Worklog

/-! ## Gregorian calendar core

`daysFromCivilM1 y m d` is the day number (days since 1970-01-01) of the
civil date `y-m-d` (month 1-based), written exactly in the standard
era/year-of-era closed form; the day argument may lie outside `[1, 31]`,
in which case the result shifts linearly, exactly matching ECMAScript
`Date` day-field normalization.  `civilFromDays` is the inverse
decomposition (era, then century, quadricycle and year inside the era),
modelling how an ECMAScript engine recovers year/month/day components
from a time value. -/

def daysFromCivilM1 (y m d : Int) : Int :=
  let y1 := if m ≤ 2 then y - 1 else y
  let era := y1 / 400
  let yoe := y1 - era * 400
  let mp := (m + 9) % 12
  let doy := (153 * mp + 2) / 5 + d - 1
  let doe := yoe * 365 + yoe / 4 - yoe / 100 + doy
  era * 146097 + doe - 719468

def cfdZ1 (z : Int) : Int := z + 719468

def cfdEra (z : Int) : Int := cfdZ1 z / 146097

def cfdDoe (z : Int) : Int := cfdZ1 z - cfdEra z * 146097

def cfdC (z : Int) : Int := if cfdDoe z / 36524 ≤ 3 then cfdDoe z / 36524 else 3

def cfdDoc (z : Int) : Int := cfdDoe z - cfdC z * 36524

def cfdQ (z : Int) : Int := cfdDoc z / 1461

def cfdDoq (z : Int) : Int := cfdDoc z - cfdQ z * 1461

def cfdYq (z : Int) : Int := if cfdDoq z / 365 ≤ 3 then cfdDoq z / 365 else 3

def cfdDoy (z : Int) : Int := cfdDoq z - cfdYq z * 365

def cfdYoe (z : Int) : Int := cfdC z * 100 + cfdQ z * 4 + cfdYq z

def cfdY (z : Int) : Int := cfdYoe z + cfdEra z * 400

def cfdMp (z : Int) : Int := (5 * cfdDoy z + 2) / 153

def cfdD (z : Int) : Int := cfdDoy z - (153 * cfdMp z + 2) / 5 + 1

def cfdM (z : Int) : Int := if cfdMp z < 10 then cfdMp z + 3 else cfdMp z - 9

/-- Year, month (1-based) and day of the civil date of day number `z`. -/
def civilFromDays (z : Int) : Int × Int × Int :=
  (if cfdM z ≤ 2 then cfdY z + 1 else cfdY z, cfdM z, cfdD z)

example : civilFromDays 0 = (1970, 1, 1) := by decide
example : daysFromCivilM1 1970 1 1 = 0 := by decide
example : civilFromDays 20372 = (2025, 10, 11) := by decide
example : civilFromDays 11016 = (2000, 2, 29) := by decide
example : civilFromDays (-1) = (1969, 12, 31) := by decide

theorem doe_facts (z : Int) : 0 ≤ cfdDoe z ∧ cfdDoe z ≤ 146096 ∧
    cfdZ1 z = cfdEra z * 146097 + cfdDoe z := by
  unfold cfdDoe cfdEra; omega

theorem c_facts (z : Int) : 0 ≤ cfdC z ∧ cfdC z ≤ 3 ∧ 0 ≤ cfdDoc z ∧ cfdDoc z ≤ 36524 ∧
    cfdDoe z = cfdC z * 36524 + cfdDoc z := by
  have h := doe_facts z
  unfold cfdDoc cfdC; omega

theorem q_facts (z : Int) : 0 ≤ cfdQ z ∧ cfdQ z ≤ 24 ∧ 0 ≤ cfdDoq z ∧ cfdDoq z ≤ 1460 ∧
    cfdDoc z = cfdQ z * 1461 + cfdDoq z := by
  have h := c_facts z
  unfold cfdDoq cfdQ; omega

theorem yq_facts (z : Int) : 0 ≤ cfdYq z ∧ cfdYq z ≤ 3 ∧ 0 ≤ cfdDoy z ∧ cfdDoy z ≤ 365 ∧
    cfdDoq z = cfdYq z * 365 + cfdDoy z := by
  have h := q_facts z
  unfold cfdDoy cfdYq; omega

theorem mp_facts (z : Int) : 0 ≤ cfdMp z ∧ cfdMp z ≤ 11 ∧
    1 ≤ cfdD z ∧ cfdD z ≤ 31 ∧ cfdDoy z = (153 * cfdMp z + 2) / 5 + cfdD z - 1 := by
  have h := yq_facts z
  unfold cfdD cfdMp; omega

theorem yoe_div4 (z : Int) : cfdYoe z / 4 = cfdC z * 25 + cfdQ z := by
  have hc := c_facts z
  have hq := q_facts z
  have hyq := yq_facts z
  unfold cfdYoe; omega

theorem yoe_div100 (z : Int) : cfdYoe z / 100 = cfdC z := by
  have hc := c_facts z
  have hq := q_facts z
  have hyq := yq_facts z
  unfold cfdYoe; omega

theorem yoe_facts (z : Int) : 0 ≤ cfdYoe z ∧ cfdYoe z ≤ 399 ∧
    cfdDoe z = cfdYoe z * 365 + cfdYoe z / 4 - cfdYoe z / 100 + cfdDoy z := by
  have hc := c_facts z
  have hq := q_facts z
  have hyq := yq_facts z
  have h4 := yoe_div4 z
  have h100 := yoe_div100 z
  unfold cfdYoe at *; omega

theorem m_facts (z : Int) : 1 ≤ cfdM z ∧ cfdM z ≤ 12 ∧ (cfdM z + 9) % 12 = cfdMp z ∧
    (cfdM z ≤ 2 ↔ 10 ≤ cfdMp z) := by
  have h := mp_facts z
  unfold cfdM; omega

/-- The civil decomposition is a section of the day-number function, and
its components are a well-formed date. -/
theorem civil_roundtrip (z : Int) :
    daysFromCivilM1 (civilFromDays z).1 (civilFromDays z).2.1 (civilFromDays z).2.2 = z ∧
    1 ≤ (civilFromDays z).2.1 ∧ (civilFromDays z).2.1 ≤ 12 ∧
    1 ≤ (civilFromDays z).2.2 ∧ (civilFromDays z).2.2 ≤ 31 := by
  have h1 := doe_facts z
  have h2 := yoe_facts z
  have h3 := mp_facts z
  have h4 := m_facts z
  have hy : cfdY z = cfdYoe z + cfdEra z * 400 := rfl
  have hz1 : cfdZ1 z = z + 719468 := rfl
  simp only [civilFromDays, daysFromCivilM1]
  by_cases hc2 : cfdM z ≤ 2
  · simp only [if_pos hc2]
    rw [show cfdY z + 1 - 1 = cfdYoe z + cfdEra z * 400 by omega]
    rw [show (cfdYoe z + cfdEra z * 400) / 400 = cfdEra z by omega]
    rw [show cfdYoe z + cfdEra z * 400 - cfdEra z * 400 = cfdYoe z by ring]
    rw [h4.2.2.1]
    omega
  · simp only [if_neg hc2]
    rw [hy]
    rw [show (cfdYoe z + cfdEra z * 400) / 400 = cfdEra z by omega]
    rw [show cfdYoe z + cfdEra z * 400 - cfdEra z * 400 = cfdYoe z by ring]
    rw [h4.2.2.1]
    omega

/-- The day number is affine in the day field: this is exactly the
ECMAScript `Date` constructor's day normalization (day 0 is the last day
of the previous month, and so on). -/
theorem daysFromCivilM1_shift (y m d e : Int) :
    daysFromCivilM1 y m e = daysFromCivilM1 y m d + (e - d) := by
  simp only [daysFromCivilM1]
  omega

/-! ## ECMAScript Date model

Instants are minutes since the Unix epoch (every value produced by the
script is whole minutes: zone offsets are whole minutes and all
constructed dates are midnights).  `tz` is the invocation's fixed local
zone offset in minutes east of UTC. -/

/-- Local calendar day number holding the instant `t` in zone `tz`. -/
def localDay (tz t : Int) : Int := (t + tz) / 1440

/-- The instant of wall-clock midnight, in zone `tz`, of local day `day`. -/
def localMidnight (tz day : Int) : Int := day * 1440 - tz

/-- Minutes elapsed since the last local wall-clock midnight at instant `t`. -/
def localMinuteOfDay (tz t : Int) : Int := (t + tz) % 1440

/-- Components `(getFullYear(), getMonth() + 1, getDate())` of instant `t`
read in local time of zone `tz` (month reported 1-based here;
ECMAScript's `getMonth()` is this value minus one). -/
def getLocalYMD (tz t : Int) : Int × Int × Int := civilFromDays (localDay tz t)

/-- The instant denoted by `new Date(y, m0, d)` (local-time constructor,
`m0` 0-based as in ECMAScript), including ECMAScript's field
normalization of out-of-range month and day values. -/
def jsNewDateLocal (tz y m0 d : Int) : Int :=
  daysFromCivilM1 (y + m0 / 12) (m0 % 12 + 1) d * 1440 - tz

/-- Decimal digit characters of `n % 100`, zero padded to width 2. -/
def twoDigits (n : Int) : List Char :=
  [Char.ofNat (48 + ((n / 10) % 10).toNat), Char.ofNat (48 + (n % 10).toNat)]

/-- Decimal digit characters of `n % 10000`, zero padded to width 4. -/
def fourDigits (n : Int) : List Char := twoDigits (n / 100) ++ twoDigits n

/-- Everything of the ISO-8601 serialization before the final "Z".  The
model is exact for years 0 to 9999 (the only ones the pipeline meets);
seconds and milliseconds are always zero at this model's minute
granularity. -/
def isoStem (t : Int) : String :=
  String.mk (fourDigits (civilFromDays (t / 1440)).1 ++
    '-' :: twoDigits (civilFromDays (t / 1440)).2.1 ++
    '-' :: twoDigits (civilFromDays (t / 1440)).2.2 ++
    'T' :: twoDigits (t % 1440 / 60) ++
    ':' :: twoDigits (t % 1440 % 60) ++
    ':' :: '0' :: '0' :: '.' :: '0' :: '0' :: '0' :: [])

/-- Model of `Date.prototype.toISOString`: UTC calendar components plus
the "Z" zone designator. -/
def toISOString (t : Int) : String := isoStem t ++ "Z"

example : toISOString 0 = "1970-01-01T00:00:00.000Z" := by decide
example : toISOString (20372 * 1440 + 83) = "2025-10-11T01:23:00.000Z" := by decide

/-- Model of `String.prototype.slice(0, n)` for nonnegative `n`. -/
def jsSlice (s : String) (n : Nat) : String := String.mk (s.data.take n)

/-- Model of `String.prototype.toLowerCase` (ASCII range). -/
def jsToLower (s : String) : String := String.mk (s.data.map Char.toLower)

/-- Whitespace recognized by the model of `String.prototype.trim`. -/
def isWS (c : Char) : Bool := c == ' ' || c == '\n' || c == '\t' || c == '\r'

/-- Model of `String.prototype.trim`: strip leading and trailing whitespace. -/
def jsTrim (s : String) : String :=
  String.mk (((s.data.dropWhile isWS).reverse.dropWhile isWS).reverse)

example : jsTrim "  a b \n" = "a b" := by decide

def isLeapYear (y : Int) : Bool := (y % 4 == 0 && y % 100 != 0) || y % 400 == 0

def daysInMonth (y m : Int) : Int :=
  if m = 2 then (if isLeapYear y then 29 else 28)
  else if m = 4 ∨ m = 6 ∨ m = 9 ∨ m = 11 then 30 else 31

/-- Model of `new Date(string)` parsing: a date-only ISO string
`YYYY-MM-DD` with in-range fields denotes UTC midnight of that date;
every other input is modelled as unparseable (`NaN`, hence `none`),
matching ECMAScript's treatment of the inputs the pipeline documents. -/
def jsParseDate (s : String) : Option Int :=
  match s.data with
  | [c0, c1, c2, c3, c4, c5, c6, c7, c8, c9] =>
    if c0.isDigit && c1.isDigit && c2.isDigit && c3.isDigit && c4 == '-' &&
       c5.isDigit && c6.isDigit && c7 == '-' && c8.isDigit && c9.isDigit then
      let y := ((c0.toNat : Int) - 48) * 1000 + ((c1.toNat : Int) - 48) * 100 +
               ((c2.toNat : Int) - 48) * 10 + ((c3.toNat : Int) - 48)
      let m := ((c5.toNat : Int) - 48) * 10 + ((c6.toNat : Int) - 48)
      let d := ((c8.toNat : Int) - 48) * 10 + ((c9.toNat : Int) - 48)
      if 1 ≤ m ∧ m ≤ 12 ∧ 1 ≤ d ∧ d ≤ daysInMonth y m then
        some (daysFromCivilM1 y m d * 1440)
      else none
    else none
  | _ => none

example : jsParseDate "2025-08-01" = some (daysFromCivilM1 2025 8 1 * 1440) := by decide
example : jsParseDate "2025-02-30" = none := by decide
example : jsParseDate "yesterday" = none := by decide
example : jsParseDate "" = none := by decide

/-- Embedding of `parseSinceDate(input)` from mcp-worklog.js, with the
ambient wall clock `now` and zone offset `tz` made explicit.  Each branch
builds `new Date(year, month, day)` from local components and serializes
it with `toISOString()`, exactly as the source does. -/
def parseSinceDate (tz now : Int) (input : String) : String :=
  if input = "" ∨ jsToLower input = "today" then
    let p := getLocalYMD tz now
    toISOString (jsNewDateLocal tz p.1 (p.2.1 - 1) p.2.2)
  else if jsToLower input = "yesterday" then
    let p := getLocalYMD tz now
    toISOString (jsNewDateLocal tz p.1 (p.2.1 - 1) (p.2.2 - 1))
  else
    match jsParseDate input with
    | some parsed =>
      let p := getLocalYMD tz parsed
      toISOString (jsNewDateLocal tz p.1 (p.2.1 - 1) p.2.2)
    | none =>
      let p := getLocalYMD tz now
      toISOString (jsNewDateLocal tz p.1 (p.2.1 - 1) p.2.2)

/-- Rebuilding `new Date(getFullYear(), getMonth(), getDate() + k)` from
the local components of an instant lands on the local midnight `k` days
after that instant's local day. -/
theorem jsNewDateLocal_ymd (tz t k : Int) :
    jsNewDateLocal tz (getLocalYMD tz t).1 ((getLocalYMD tz t).2.1 - 1)
      ((getLocalYMD tz t).2.2 + k) = localMidnight tz (localDay tz t + k) := by
  have hr := civil_roundtrip (localDay tz t)
  simp only [getLocalYMD, jsNewDateLocal, localMidnight]
  rw [show ((civilFromDays (localDay tz t)).2.1 - 1) / 12 = 0 by omega, add_zero]
  rw [show ((civilFromDays (localDay tz t)).2.1 - 1) % 12 + 1 =
      (civilFromDays (localDay tz t)).2.1 by omega]
  rw [daysFromCivilM1_shift (civilFromDays (localDay tz t)).1
      (civilFromDays (localDay tz t)).2.1 (civilFromDays (localDay tz t)).2.2
      ((civilFromDays (localDay tz t)).2.2 + k)]
  rw [hr.1]
  ring

/-! ## Pipeline embedding

Child process execution is modelled by an `ExecOut` record the
environment supplies per command (the raw captured stream plus the
child's own failure, if any); `execCapture` applies Node's `maxBuffer`
policy to it.  The registry file, the per-date output file, console
output and the process exit code are explicit state. -/

structure Config where
  projects : List (String × String)
  activeProject : Option String
  worklogFolderName : Option String
deriving DecidableEq

/-- Property read `cfg.projects[name]` on the registry mapping. -/
def lookupProject (ps : List (String × String)) (name : String) : Option String :=
  (ps.find? (fun p => p.1 == name)).map (fun p => p.2)

/-- ECMAScript falsiness of an optional string: absent or empty. -/
def falsy : Option String → Bool
  | none => true
  | some s => s == ""

/-- Raw result of one child process run: the captured standard output
stream and the child's own error, when it failed. -/
structure ExecOut where
  err : Option String
  stdout : String
deriving DecidableEq

/-- Node `exec` capture policy: output beyond `maxBuffer` is never
delivered; the callback receives an error instead. -/
def execCapture (maxBuffer : Nat) (r : ExecOut) : Except String String :=
  if maxBuffer < r.stdout.length then Except.error "stdout maxBuffer length exceeded"
  else match r.err with
    | some e => Except.error e
    | none => Except.ok r.stdout

/-- Node's default `exec` capture buffer (bytes): 1 MiB. -/
def defaultMaxBuffer : Nat := 1024 * 1024

/-- The capture buffer passed for `git show` in getCommitDiff: 20 MiB. -/
def diffMaxBuffer : Nat := 20 * 1024 * 1024

/-- The repository as seen through the two git child commands of one
invocation: the `git log` run for the resolved window, and the
`git show` run for each requested hash. -/
structure GitEnv where
  logExec : ExecOut
  showExec : String → ExecOut

def splitNl : List Char → List (List Char)
  | [] => [[]]
  | c :: rest =>
    if c = '\n' then [] :: splitNl rest
    else match splitNl rest with
      | [] => [[c]]
      | l :: ls => (c :: l) :: ls

def stripCR (l : List Char) : List Char :=
  match l.getLast? with
  | some c => if c = '\r' then l.dropLast else l
  | none => l

/-- Model of `split(/\r?\n/)`: split on newlines, each separator eating
one optional preceding carriage return. -/
def jsSplitCRLF (s : String) : List String :=
  (splitNl s.data).map (fun l => String.mk (stripCR l))

example : jsSplitCRLF "a\r\nb\nc" = ["a", "b", "c"] := by decide
example : jsSplitCRLF "" = [""] := by decide

/-- Embedding of `getCommitHashes(repoPath, since)`: run `git log`,
trim, split into lines, drop falsy (empty) entries. -/
def getCommitHashes (env : GitEnv) : Except String (List String) :=
  match execCapture defaultMaxBuffer env.logExec with
  | Except.error e => Except.error e
  | Except.ok stdout =>
    Except.ok ((jsSplitCRLF (jsTrim stdout)).filter (fun h => h != ""))

/-- Embedding of `getCommitDiff(repoPath, commitHash)`: run `git show`
with a 20 MiB capture buffer and trim the output. -/
def getCommitDiff (env : GitEnv) (commitHash : String) : Except String String :=
  match execCapture diffMaxBuffer (env.showExec commitHash) with
  | Except.error e => Except.error e
  | Except.ok stdout => Except.ok (jsTrim stdout)

/-- The sequential `for (const h of limitedHashes)` loop of
getCommitDiffs: one diff at a time, aborting on the first failure. -/
def diffsLoop (env : GitEnv) : List String → Except String (List String)
  | [] => Except.ok []
  | h :: rest =>
    match getCommitDiff env h with
    | Except.error e => Except.error e
    | Except.ok d =>
      match diffsLoop env rest with
      | Except.error e => Except.error e
      | Except.ok ds => Except.ok (d :: ds)

/-- Embedding of `getCommitDiffs(repoPath, since)`: list hashes, keep
`slice(0, 10)`, fetch those diffs sequentially. -/
def getCommitDiffs (env : GitEnv) : Except String (List String) :=
  match getCommitHashes env with
  | Except.error e => Except.error e
  | Except.ok hashes => diffsLoop env (hashes.take 10)

/-- Model of `Array.prototype.join(sep)`. -/
def jsJoin (sep : String) : List String → String
  | [] => ""
  | [x] => x
  | x :: rest => x ++ sep ++ jsJoin sep rest

/-- Embedding of `buildPromptFromDiffs(diffs)`: the fixed instruction
template around the diffs joined by the fixed separator, byte for byte
as in the source template literal. -/
def buildPromptFromDiffs (diffs : List String) : String :=
  let combinedDiffs := jsJoin "\n\n---\n\n" diffs
  "You are a 10x developer assistant.\n  \n  Input: Recent git commit diffs below:\n  \n  " ++
    combinedDiffs ++
    "\n  \n  Task 1: Produce a \"Developer Work Log\" in markdown format. For each commit write a bullet point summarizing the key code changes and files affected, using the commit hash short form.\n  Task 2: Produce a \"Manager Summary\" with concise, non-technical bullet points describing overall progress.\n  \n  Output both sections separated by a horizontal rule."

/-- Embedding of `callGemini(promptText)`: the child's collected stdout
on exit code 0, otherwise an error carrying the exit code. -/
def callGemini (geminiExit : Nat) (geminiOut : String) (promptText : String) :
    Except String String :=
  let _ := promptText
  if geminiExit = 0 then Except.ok geminiOut
  else Except.error ("gemini exited code " ++ toString geminiExit)

/-- Embedding of `getActiveRepoPath()`: resolve the active project from
the registry, with ECMAScript falsiness on the name and path. -/
def getActiveRepoPath (cfg : Config) : Except String (String × String × String) :=
  let name := cfg.activeProject
  if falsy name then Except.error "No activeProject in config"
  else
    match name with
    | none => Except.error "No activeProject in config"
    | some nm =>
      let repo := lookupProject cfg.projects nm
      if falsy repo then Except.error ("Project path missing for " ++ nm)
      else
        match repo with
        | none => Except.error ("Project path missing for " ++ nm)
        | some rp =>
          Except.ok (nm, rp,
            match cfg.worklogFolderName with
            | none => "worklogs"
            | some w => if w = "" then "worklogs" else w)

/-- Embedding of `setActiveProject(name)`: returns the registry file
state after the call together with the call's outcome (the success
message, or the thrown error). -/
def setActiveProject (name : String) (file : Config) : Config × Except String String :=
  let cfg := file
  if falsy (lookupProject cfg.projects name) then
    (file, Except.error ("Unknown project: " ++ name))
  else
    let cfg2 := { cfg with activeProject := some name }
    (cfg2, Except.ok ("activeProject set to " ++ name))

/-- The external world of one invocation: registry file content, git
results, the gemini child's exit code and collected output, the wall
clock and zone offset. -/
structure RunEnv where
  cfg : Config
  git : GitEnv
  geminiExit : Nat
  geminiOut : String
  now : Int
  tz : Int

/-- Observable outcome of one invocation: the final content of the
dated output file (`none` when absent), the write call if one was made,
console messages in order, the prompt built and sent if any, the final
registry file, and the process exit code. -/
structure RunState where
  fileContent : Option String
  written : Option (String × String)
  messages : List String
  promptBuilt : Option String
  geminiCalled : Option String
  cfgFile : Config
  exitCode : Nat
deriving DecidableEq

/-- Embedding of `generate(since)`.  `fs0` is the content of the dated
output file before the run.  `Except.error` is an exception escaping
`generate` itself: only `getActiveRepoPath` can throw outside the
`try` block, so such exceptions reach the top-level catch instead of the
in-function handler that calls `process.exit(1)`. -/
def generate (env : RunEnv) (since : String) (fs0 : Option String) :
    Except String RunState :=
  match getActiveRepoPath env.cfg with
  | Except.error e => Except.error e
  | Except.ok (_name, repo, worklogFolderName) =>
    match getCommitDiffs env.git with
    | Except.error e =>
      Except.ok { fileContent := fs0, written := none, messages := [e],
                  promptBuilt := none, geminiCalled := none,
                  cfgFile := env.cfg, exitCode := 1 }
    | Except.ok diffs =>
      if diffs.length = 0 then
        Except.ok { fileContent := fs0, written := none,
                    messages := ["No commits found since " ++ since],
                    promptBuilt := none, geminiCalled := none,
                    cfgFile := env.cfg, exitCode := 0 }
      else
        let prompt := buildPromptFromDiffs diffs
        match callGemini env.geminiExit env.geminiOut prompt with
        | Except.error e =>
          Except.ok { fileContent := fs0, written := none, messages := [e],
                      promptBuilt := some prompt, geminiCalled := some prompt,
                      cfgFile := env.cfg, exitCode := 1 }
        | Except.ok result =>
          let date := jsSlice (toISOString env.now) 10
          let outPath := repo ++ "/" ++ worklogFolderName ++ "/" ++ (date ++ ".md")
          let content := "# Work Log — " ++ date ++ "\n\n" ++ jsTrim result ++ "\n"
          Except.ok { fileContent := some content, written := some (outPath, content),
                      messages := ["Saved " ++ outPath],
                      promptBuilt := some prompt, geminiCalled := some prompt,
                      cfgFile := env.cfg, exitCode := 0 }

/-- Embedding of the CLI dispatch (the top-level async IIFE): its
`catch` prints the escaped error's message and lets the process end
normally, so only failures caught inside `generate` (which calls
`process.exit(1)`) yield a non-zero exit code. -/
def cliMain (argv : List String) (env : RunEnv) (fs0 : Option String) : RunState :=
  let cmd := argv.headD ""
  if cmd = "set-active" then
    -- a missing second argument is modelled as "" (its message differs
    -- from JS by printing "" where JS prints "undefined"; both are
    -- rejected as unknown names)
    let nm := (argv.drop 1).headD ""
    match setActiveProject nm env.cfg with
    | (cfg2, Except.ok msg) =>
      { fileContent := fs0, written := none, messages := [msg],
        promptBuilt := none, geminiCalled := none, cfgFile := cfg2, exitCode := 0 }
    | (cfg2, Except.error e) =>
      { fileContent := fs0, written := none, messages := [e],
        promptBuilt := none, geminiCalled := none, cfgFile := cfg2, exitCode := 0 }
  else if cmd = "generate" then
    -- argv[1] || "today": absent and empty both fall back
    let arg := (argv.drop 1).headD ""
    let rawSince := if arg = "" then "today" else arg
    let since := parseSinceDate env.tz env.now rawSince
    match generate env since fs0 with
    | Except.ok st => st
    | Except.error e =>
      { fileContent := fs0, written := none, messages := [e],
        promptBuilt := none, geminiCalled := none, cfgFile := env.cfg, exitCode := 0 }
  else if cmd = "list-projects" then
    -- output shape modelled coarsely; no claim concerns this branch
    { fileContent := fs0, written := none,
      messages := ["Projects:", "activeProject:"],
      promptBuilt := none, geminiCalled := none, cfgFile := env.cfg, exitCode := 0 }
  else
    { fileContent := fs0, written := none,
      messages := ["usage: set-active <name> | list-projects | generate [since]"],
      promptBuilt := none, geminiCalled := none, cfgFile := env.cfg, exitCode := 0 }

/-! ## Helper lemmas -/

theorem go_jsJoin (sep : String) : ∀ (l : List String) (a : String),
    String.intercalate.go a sep l = jsJoin sep (a :: l)
  | [], _ => rfl
  | y :: rest, a => by
    have h1 : String.intercalate.go a sep (y :: rest) =
        String.intercalate.go (a ++ sep ++ y) sep rest := rfl
    rw [h1, go_jsJoin sep rest (a ++ sep ++ y)]
    cases rest with
    | nil => simp [jsJoin, String.append_assoc]
    | cons r rs =>
      have h2 : jsJoin sep ((a ++ sep ++ y) :: r :: rs) =
          (a ++ sep ++ y) ++ sep ++ jsJoin sep (r :: rs) := rfl
      have h3 : jsJoin sep (a :: y :: r :: rs) =
          a ++ sep ++ jsJoin sep (y :: r :: rs) := rfl
      have h4 : jsJoin sep (y :: r :: rs) = y ++ sep ++ jsJoin sep (r :: rs) := rfl
      rw [h2, h3, h4]
      simp [String.append_assoc]

/-- The source's serializing join agrees with the library join. -/
theorem jsJoin_eq_intercalate (sep : String) (l : List String) :
    jsJoin sep l = String.intercalate sep l := by
  cases l with
  | nil => rfl
  | cons a as =>
    rw [show String.intercalate sep (a :: as) = String.intercalate.go a sep as from rfl,
      go_jsJoin]

/-- The diff loop only ever consults the diff oracle on members of its
input list. -/
theorem diffsLoop_ext (env env2 : GitEnv) :
    ∀ l : List String, (∀ h ∈ l, env2.showExec h = env.showExec h) →
      diffsLoop env2 l = diffsLoop env l
  | [], _ => rfl
  | h :: rest, hag => by
    have hd : getCommitDiff env2 h = getCommitDiff env h := by
      unfold getCommitDiff
      rw [hag h (List.mem_cons_self h rest)]
    have hr : diffsLoop env2 rest = diffsLoop env rest :=
      diffsLoop_ext env env2 rest (fun x hx => hag x (List.mem_cons_of_mem h hx))
    unfold diffsLoop
    rw [hd, hr]

/-- When every requested diff succeeds, the loop returns exactly the
diffs of its input hashes, in input order. -/
theorem diffsLoop_map (env : GitEnv) (f : String → String) :
    ∀ l : List String, (∀ h ∈ l, getCommitDiff env h = Except.ok (f h)) →
      diffsLoop env l = Except.ok (l.map f)
  | [], _ => rfl
  | h :: rest, hok => by
    have hr := diffsLoop_map env f rest (fun x hx => hok x (List.mem_cons_of_mem h hx))
    unfold diffsLoop
    rw [hok h (List.mem_cons_self h rest), hr]
    rfl

/-- A failing member makes the whole sequential loop fail. -/
theorem diffsLoop_error_of_mem (env : GitEnv) (h : String) :
    ∀ l : List String, h ∈ l → (∃ e, getCommitDiff env h = Except.error e) →
      ∃ e, diffsLoop env l = Except.error e
  | [], hm, _ => absurd hm (List.not_mem_nil h)
  | a :: rest, hm, he => by
    unfold diffsLoop
    cases hd : getCommitDiff env a with
    | error e => exact ⟨e, rfl⟩
    | ok d =>
      have hmr : h ∈ rest := by
        rcases List.mem_cons.mp hm with rfl | hr
        · obtain ⟨e, he⟩ := he
          rw [hd] at he
          exact absurd he (by simp)
        · exact hr
      obtain ⟨e, hrest⟩ := diffsLoop_error_of_mem env h rest hmr he
      rw [hrest]
      exact ⟨e, rfl⟩

/-! ## Claims -/

/-- The first half of the fixed instruction template of the Prompt
Assembler, as the spec describes it. -/
def promptHeader : String :=
  "You are a 10x developer assistant.\n  \n  Input: Recent git commit diffs below:\n  \n  "

/-- The second half of the fixed instruction template of the Prompt
Assembler, as the spec describes it. -/
def promptFooter : String :=
  "\n  \n  Task 1: Produce a \"Developer Work Log\" in markdown format. For each commit write a bullet point summarizing the key code changes and files affected, using the commit hash short form.\n  Task 2: Produce a \"Manager Summary\" with concise, non-technical bullet points describing overall progress.\n  \n  Output both sections separated by a horizontal rule."

/-- C9: buildPromptFromDiffs is a deterministic pure function: it wraps
the diff texts, joined in the batch's existing order by the fixed
separator between records, in the fixed instruction template, and
identical batch input yields byte-identical Prompt output. -/
theorem C9_assembler_deterministic (diffs : List String) :
    buildPromptFromDiffs diffs =
      promptHeader ++ String.intercalate "\n\n---\n\n" diffs ++ promptFooter ∧
    ∀ batch2 : List String, batch2 = diffs →
      buildPromptFromDiffs batch2 = buildPromptFromDiffs diffs := by
  constructor
  · show promptHeader ++ jsJoin "\n\n---\n\n" diffs ++ promptFooter = _
    rw [jsJoin_eq_intercalate]
  · intro batch2 hb
    rw [hb]

/-- C9 witness: the template equality evaluated on a concrete two-record
batch. -/
theorem C9_witness :
    buildPromptFromDiffs ["diff one", "diff two"] =
      promptHeader ++ String.intercalate "\n\n---\n\n" ["diff one", "diff two"] ++
        promptFooter :=
  (C9_assembler_deterministic ["diff one", "diff two"]).1

/-- C10: activating a project name that is not in the registry mapping
fails with the "Unknown project" error and leaves the registry file
unchanged; the registry is only ever mutated and saved after the name
validates against the mapping. -/
theorem C10_unknown_project_rejected (name : String) (file : Config)
    (h : lookupProject file.projects name = none) :
    setActiveProject name file = (file, Except.error ("Unknown project: " ++ name)) ∧
    ∀ (nm2 : String) (f2 : Config), (setActiveProject nm2 f2).1 ≠ f2 →
      ∃ p, lookupProject f2.projects nm2 = some p ∧ p ≠ "" := by
  constructor
  · simp only [setActiveProject]
    rw [h]
    rfl
  · intro nm2 f2 hne
    simp only [setActiveProject] at hne
    cases hl : lookupProject f2.projects nm2 with
    | none =>
      rw [hl] at hne
      simp [falsy] at hne
    | some p =>
      by_cases hp : p = ""
      · subst hp
        rw [hl] at hne
        simp [falsy] at hne
      · exact ⟨p, rfl, hp⟩

/-- C10 witness: a concrete registry with one project rejects an unknown
name and is returned unchanged. -/
theorem C10_witness :
    setActiveProject "nope" (Config.mk [("crm-system", "/home/a/crm")] (some "crm-system") none) =
      (Config.mk [("crm-system", "/home/a/crm")] (some "crm-system") none,
        Except.error "Unknown project: nope") :=
  (C10_unknown_project_rejected "nope"
    (Config.mk [("crm-system", "/home/a/crm")] (some "crm-system") none) (by decide)).1

/-- C8: capture output exceeding the configured buffer makes the fetch
(and, through the sequential loop, the whole pipeline run) fail rather
than silently truncate, and the diff capture buffer is 20 MiB — tens of
megabytes. -/
theorem C8_output_too_large (env : RunEnv) (since : String) (fs0 : Option String)
    (pr : String × String × String) (hs : List String)
    (hact : getActiveRepoPath env.cfg = Except.ok pr)
    (hh : getCommitHashes env.git = Except.ok hs)
    (hbig : ∃ h ∈ hs.take 10, diffMaxBuffer < ((env.git.showExec h).stdout).length) :
    (∀ (g : GitEnv) (hsh : String), diffMaxBuffer < ((g.showExec hsh).stdout).length →
      getCommitDiff g hsh = Except.error "stdout maxBuffer length exceeded") ∧
    (∀ g : GitEnv, defaultMaxBuffer < g.logExec.stdout.length →
      getCommitHashes g = Except.error "stdout maxBuffer length exceeded") ∧
    (diffMaxBuffer = 20 * 1024 * 1024 ∧ 10 * 1024 * 1024 ≤ diffMaxBuffer) ∧
    ∃ st : RunState, generate env since fs0 = Except.ok st ∧
      st.exitCode = 1 ∧ st.written = none ∧ st.fileContent = fs0 := by
  refine ⟨?_, ?_, ⟨rfl, by decide⟩, ?_⟩
  · intro g hsh hlen
    unfold getCommitDiff execCapture
    rw [if_pos hlen]
  · intro g hlen
    unfold getCommitHashes execCapture
    rw [if_pos hlen]
  · obtain ⟨h, hmem, hlen⟩ := hbig
    have herr : ∃ e, getCommitDiff env.git h = Except.error e := by
      refine ⟨"stdout maxBuffer length exceeded", ?_⟩
      unfold getCommitDiff execCapture
      rw [if_pos hlen]
    obtain ⟨e, hloop⟩ := diffsLoop_error_of_mem env.git h (hs.take 10) hmem herr
    have hdiffs : getCommitDiffs env.git = Except.error e := by
      simp only [getCommitDiffs, hh]
      exact hloop
    obtain ⟨nm, repo, wf⟩ := pr
    refine ⟨{ fileContent := fs0, written := none, messages := [e],
              promptBuilt := none, geminiCalled := none,
              cfgFile := env.cfg, exitCode := 1 }, ?_, rfl, rfl, rfl⟩
    unfold generate
    rw [hact, hdiffs]

/-- Oversized captured diff output used by the C8 witness: one byte over
the 20 MiB buffer. -/
def bigOut : String := String.mk (List.replicate (20 * 1024 * 1024 + 1) 'a')

def c8git : GitEnv := GitEnv.mk (ExecOut.mk none "deadbeef") (fun _ => ExecOut.mk none bigOut)

def c8cfg : Config := Config.mk [("p", "/repo")] (some "p") none

def c8env : RunEnv := RunEnv.mk c8cfg c8git 0 "" 0 0

/-- C8 witness: a run whose single requested diff exceeds the buffer
fails with exit code 1 and writes nothing. -/
theorem C8_witness :
    ∃ st : RunState, generate c8env "2025-01-01T00:00:00.000Z" none = Except.ok st ∧
      st.exitCode = 1 ∧ st.written = none ∧ st.fileContent = none := by
  have hlen : diffMaxBuffer < ((c8git.showExec "deadbeef").stdout).length := by
    show diffMaxBuffer < bigOut.length
    rw [show bigOut.length = (List.replicate (20 * 1024 * 1024 + 1) 'a').length from rfl,
      List.length_replicate]
    decide
  exact (C8_output_too_large c8env "2025-01-01T00:00:00.000Z" none
    ("p", "/repo", "worklogs") ["deadbeef"] rfl rfl
    ⟨"deadbeef", by decide, hlen⟩).2.2.2

/-- C1: when the history query returns more than 10 hashes, the
extractor keeps exactly the first 10 in original order, its result is
the sequential fetch of exactly those (in that order), and it never
consults the diff oracle on any hash beyond the first 10: the outcome is
unchanged under any modification of diff behaviour outside that prefix. -/
theorem C1_extractor_cap (env : GitEnv) (hs : List String)
    (hh : getCommitHashes env = Except.ok hs) (hlen : 10 < hs.length) :
    ((hs.take 10).length = 10 ∧ ∀ i : Nat, i < 10 → (hs.take 10)[i]? = hs[i]?) ∧
    getCommitDiffs env = diffsLoop env (hs.take 10) ∧
    (∀ f : String → String,
      (∀ h ∈ hs.take 10, getCommitDiff env h = Except.ok (f h)) →
      getCommitDiffs env = Except.ok ((hs.take 10).map f)) ∧
    (∀ env2 : GitEnv, env2.logExec = env.logExec →
      (∀ h ∈ hs.take 10, env2.showExec h = env.showExec h) →
      getCommitDiffs env2 = getCommitDiffs env) := by
  have hcd : getCommitDiffs env = diffsLoop env (hs.take 10) := by
    simp only [getCommitDiffs, hh]
  refine ⟨⟨?_, ?_⟩, hcd, ?_, ?_⟩
  · rw [List.length_take]
    omega
  · intro i hi
    simp [List.getElem?_take, hi]
  · intro f hok
    rw [hcd]
    exact diffsLoop_map env f (hs.take 10) hok
  · intro env2 hlog hshow
    have hh2 : getCommitHashes env2 = Except.ok hs := by
      unfold getCommitHashes at hh ⊢
      rw [hlog]
      exact hh
    simp only [getCommitDiffs, hh, hh2]
    exact diffsLoop_ext env env2 (hs.take 10) hshow

def c1git : GitEnv :=
  GitEnv.mk (ExecOut.mk none "h01\nh02\nh03\nh04\nh05\nh06\nh07\nh08\nh09\nh10\nh11")
    (fun h => ExecOut.mk none ("diff-" ++ h))

/-- C1 witness: with 11 hashes in the window, the extractor returns the
diffs of the first 10, in order. -/
theorem C1_witness :
    getCommitDiffs c1git =
      Except.ok ((["h01", "h02", "h03", "h04", "h05", "h06", "h07", "h08", "h09",
        "h10", "h11"].take 10).map (fun h => "diff-" ++ h)) := by
  refine (C1_extractor_cap c1git
    ["h01", "h02", "h03", "h04", "h05", "h06", "h07", "h08", "h09", "h10", "h11"]
    rfl (by decide)).2.2.1 (fun h => "diff-" ++ h) ?_
  intro h hm
  fin_cases hm <;> rfl

/-- Any run of `generate` that performs a write had a zero back-end exit
code and ends with process exit code 0. -/
theorem generate_written_exit_zero (env : RunEnv) (s : String) (f0 : Option String)
    (st : RunState) (hgen : generate env s f0 = Except.ok st)
    (hw : st.written ≠ none) : env.geminiExit = 0 ∧ st.exitCode = 0 := by
  unfold generate at hgen
  split at hgen
  · exact absurd hgen (by simp)
  · split at hgen
    · injection hgen with h
      rw [← h] at hw
      simp at hw
    · split at hgen
      · injection hgen with h
        rw [← h] at hw
        simp at hw
      · by_cases hexit : env.geminiExit = 0
        · simp only [callGemini, if_pos hexit] at hgen
          injection hgen with h
          rw [← h]
          exact ⟨hexit, rfl⟩
        · simp only [callGemini, if_neg hexit] at hgen
          injection hgen with h
          rw [← h] at hw
          simp at hw

/-- C2: a non-zero back-end exit code fails the run with the message
carrying that exit code, exit code 1, and no file created or modified;
and a write only ever happens on a zero back-end exit code. -/
theorem C2_generation_failure (env : RunEnv) (since : String) (fs0 : Option String)
    (pr : String × String × String) (diffs : List String)
    (hact : getActiveRepoPath env.cfg = Except.ok pr)
    (hd : getCommitDiffs env.git = Except.ok diffs)
    (hne : diffs ≠ []) (hexit : env.geminiExit ≠ 0) :
    generate env since fs0 = Except.ok
      { fileContent := fs0, written := none,
        messages := ["gemini exited code " ++ toString env.geminiExit],
        promptBuilt := some (buildPromptFromDiffs diffs),
        geminiCalled := some (buildPromptFromDiffs diffs),
        cfgFile := env.cfg, exitCode := 1 } ∧
    (∀ (env2 : RunEnv) (s2 : String) (f2 : Option String) (st2 : RunState),
      generate env2 s2 f2 = Except.ok st2 → st2.written ≠ none →
      env2.geminiExit = 0) := by
  constructor
  · obtain ⟨nm, repo, wf⟩ := pr
    have hlen0 : ¬ diffs.length = 0 := by simpa using hne
    simp only [generate, hact, hd]
    rw [if_neg hlen0]
    simp only [callGemini, if_neg hexit]
  · intro env2 s2 f2 st2 hgen hw
    exact (generate_written_exit_zero env2 s2 f2 st2 hgen hw).1

def c2cfg : Config := Config.mk [("p", "/repo")] (some "p") none

def c2git : GitEnv := GitEnv.mk (ExecOut.mk none "abc") (fun _ => ExecOut.mk none "some diff")

def c2env : RunEnv := RunEnv.mk c2cfg c2git 3 "" 0 0

/-- C2 witness: a back end exiting with code 3 yields exit code 1, the
message "gemini exited code 3", and an untouched file state. -/
theorem C2_witness :
    generate c2env "w" (some "old content") = Except.ok
      { fileContent := some "old content", written := none,
        messages := ["gemini exited code 3"],
        promptBuilt := some (buildPromptFromDiffs ["some diff"]),
        geminiCalled := some (buildPromptFromDiffs ["some diff"]),
        cfgFile := c2cfg, exitCode := 1 } :=
  (C2_generation_failure c2env "w" (some "old content") ("p", "/repo", "worklogs")
    ["some diff"] rfl rfl (by decide) (by decide)).1

/-- C3: an empty hash list short-circuits the run: no prompt is built,
the back end is not launched, nothing is written, the message is
"No commits found since " followed by the resolved window, and the
process terminates normally (exit code 0); at the CLI level the window
value in the message is exactly the resolver's output for the given
token. -/
theorem C3_empty_window (env : RunEnv) (since : String) (fs0 : Option String)
    (pr : String × String × String)
    (hact : getActiveRepoPath env.cfg = Except.ok pr)
    (hh : getCommitHashes env.git = Except.ok []) :
    generate env since fs0 = Except.ok
      { fileContent := fs0, written := none,
        messages := ["No commits found since " ++ since],
        promptBuilt := none, geminiCalled := none,
        cfgFile := env.cfg, exitCode := 0 } ∧
    ∀ tok : String, cliMain ["generate", tok] env fs0 =
      { fileContent := fs0, written := none,
        messages := ["No commits found since " ++
          parseSinceDate env.tz env.now (if tok = "" then "today" else tok)],
        promptBuilt := none, geminiCalled := none,
        cfgFile := env.cfg, exitCode := 0 } := by
  have hd : getCommitDiffs env.git = Except.ok [] := by
    simp only [getCommitDiffs, hh]
    rfl
  have hgen : ∀ s : String, generate env s fs0 = Except.ok
      { fileContent := fs0, written := none,
        messages := ["No commits found since " ++ s],
        promptBuilt := none, geminiCalled := none,
        cfgFile := env.cfg, exitCode := 0 } := by
    intro s
    obtain ⟨nm, repo, wf⟩ := pr
    simp only [generate, hact, hd]
    rfl
  refine ⟨hgen since, ?_⟩
  intro tok
  have hred : cliMain ["generate", tok] env fs0 =
      (match generate env
          (parseSinceDate env.tz env.now (if tok = "" then "today" else tok)) fs0 with
        | Except.ok st => st
        | Except.error e =>
          { fileContent := fs0, written := none, messages := [e],
            promptBuilt := none, geminiCalled := none,
            cfgFile := env.cfg, exitCode := 0 }) := rfl
  rw [hred, hgen]

def c3env : RunEnv := RunEnv.mk c8cfg (GitEnv.mk (ExecOut.mk none "") (fun _ => ExecOut.mk none "")) 0 "" 0 0

/-- C3 witness: a run over an empty window prints the message with the
resolved window and exits 0 without writing; here the resolved window of
the default token at epoch instant 0 in zone UTC is midnight of
1970-01-01. -/
theorem C3_witness :
    cliMain ["generate", ""] c3env none =
      { fileContent := none, written := none,
        messages := ["No commits found since 1970-01-01T00:00:00.000Z"],
        promptBuilt := none, geminiCalled := none,
        cfgFile := c8cfg, exitCode := 0 } := by
  have h := (C3_empty_window c3env "x" none ("p", "/repo", "worklogs") rfl rfl).2 ""
  rw [h]
  decide

/-- C4: on success the writer writes
`{repositoryPath}/{outputFolderName}/{date}.md` with exactly the header
line, a blank line, the trimmed report and a trailing newline, where
`date` is the run's `YYYY-MM-DD` string; the result does not depend on
any existing file for that date (unconditional overwrite), so a second
run for the same date leaves only the second run's report. -/
theorem C4_writer_output (env : RunEnv) (since : String)
    (nm repo wf : String) (diffs : List String)
    (hact : getActiveRepoPath env.cfg = Except.ok (nm, repo, wf))
    (hd : getCommitDiffs env.git = Except.ok diffs)
    (hne : diffs ≠ []) (hexit : env.geminiExit = 0) :
    (∀ fs0 : Option String,
      generate env since fs0 = Except.ok
        { fileContent := some ("# Work Log — " ++ jsSlice (toISOString env.now) 10 ++
            "\n\n" ++ jsTrim env.geminiOut ++ "\n"),
          written := some
            (repo ++ "/" ++ wf ++ "/" ++ (jsSlice (toISOString env.now) 10 ++ ".md"),
             "# Work Log — " ++ jsSlice (toISOString env.now) 10 ++
               "\n\n" ++ jsTrim env.geminiOut ++ "\n"),
          messages := ["Saved " ++
            (repo ++ "/" ++ wf ++ "/" ++ (jsSlice (toISOString env.now) 10 ++ ".md"))],
          promptBuilt := some (buildPromptFromDiffs diffs),
          geminiCalled := some (buildPromptFromDiffs diffs),
          cfgFile := env.cfg, exitCode := 0 }) ∧
    (∀ old : String, generate env since (some old) = generate env since none) := by
  have hlen0 : ¬ diffs.length = 0 := by simpa using hne
  have hmain : ∀ fs0 : Option String,
      generate env since fs0 = Except.ok
        { fileContent := some ("# Work Log — " ++ jsSlice (toISOString env.now) 10 ++
            "\n\n" ++ jsTrim env.geminiOut ++ "\n"),
          written := some
            (repo ++ "/" ++ wf ++ "/" ++ (jsSlice (toISOString env.now) 10 ++ ".md"),
             "# Work Log — " ++ jsSlice (toISOString env.now) 10 ++
               "\n\n" ++ jsTrim env.geminiOut ++ "\n"),
          messages := ["Saved " ++
            (repo ++ "/" ++ wf ++ "/" ++ (jsSlice (toISOString env.now) 10 ++ ".md"))],
          promptBuilt := some (buildPromptFromDiffs diffs),
          geminiCalled := some (buildPromptFromDiffs diffs),
          cfgFile := env.cfg, exitCode := 0 } := by
    intro fs0
    simp only [generate, hact, hd]
    rw [if_neg hlen0]
    simp only [callGemini, if_pos hexit]
  exact ⟨hmain, fun old => by rw [hmain (some old), hmain none]⟩

def c4env : RunEnv :=
  RunEnv.mk c2cfg (GitEnv.mk (ExecOut.mk none "abc") (fun _ => ExecOut.mk none "d1"))
    0 "  The report body.  " (20372 * 1440) 0

/-- C4 witness: a successful run at UTC instant 2025-10-11T00:00 writes
`/repo/worklogs/2025-10-11.md` containing the header, a blank line, the
trimmed report and a trailing newline, regardless of the file's prior
content. -/
theorem C4_witness :
    generate c4env "w" (some "stale first-run content") = Except.ok
      { fileContent := some "# Work Log — 2025-10-11\n\nThe report body.\n",
        written := some ("/repo/worklogs/2025-10-11.md",
          "# Work Log — 2025-10-11\n\nThe report body.\n"),
        messages := ["Saved /repo/worklogs/2025-10-11.md"],
        promptBuilt := some (buildPromptFromDiffs ["d1"]),
        geminiCalled := some (buildPromptFromDiffs ["d1"]),
        cfgFile := c2cfg, exitCode := 0 } := by
  rw [(C4_writer_output c4env "w" "p" "/repo" "worklogs" ["d1"] rfl rfl
    (by decide) rfl).1 (some "stale first-run content")]
  rfl

def c5cfg : Config := Config.mk [("p", "/repo")] none none

def c5env : RunEnv :=
  RunEnv.mk c5cfg (GitEnv.mk (ExecOut.mk none "") (fun _ => ExecOut.mk none "")) 0 "" 0 0

/-- C5 counterexample: with the active project unset, the run prints the
configuration failure reason but the process terminates with exit code
0, not a non-zero code — `getActiveRepoPath()` is called outside
`generate`'s try block, so its exception reaches the top-level catch,
which only prints. -/
theorem C5_counterexample :
    (cliMain ["generate"] c5env none).messages = ["No activeProject in config"] ∧
    (cliMain ["generate"] c5env none).exitCode = 0 := by
  decide

/-- C5 (amended): every unrecoverable failure prints its reason; the
failures raised inside `generate`'s guarded pipeline (history query,
diff fetch, generation back end) additionally exit with code 1, while a
configuration failure propagates to the top-level handler, which prints
the reason and lets the process exit with code 0. -/
theorem C5_failure_reporting (env : RunEnv) (since : String) (fs0 : Option String) :
    (∀ e : String, getActiveRepoPath env.cfg = Except.error e →
      cliMain ["generate"] env fs0 =
        { fileContent := fs0, written := none, messages := [e],
          promptBuilt := none, geminiCalled := none,
          cfgFile := env.cfg, exitCode := 0 }) ∧
    (∀ (pr : String × String × String) (e : String),
      getActiveRepoPath env.cfg = Except.ok pr →
      getCommitDiffs env.git = Except.error e →
      generate env since fs0 = Except.ok
        { fileContent := fs0, written := none, messages := [e],
          promptBuilt := none, geminiCalled := none,
          cfgFile := env.cfg, exitCode := 1 }) ∧
    (∀ (pr : String × String × String) (diffs : List String),
      getActiveRepoPath env.cfg = Except.ok pr →
      getCommitDiffs env.git = Except.ok diffs → diffs ≠ [] → env.geminiExit ≠ 0 →
      generate env since fs0 = Except.ok
        { fileContent := fs0, written := none,
          messages := ["gemini exited code " ++ toString env.geminiExit],
          promptBuilt := some (buildPromptFromDiffs diffs),
          geminiCalled := some (buildPromptFromDiffs diffs),
          cfgFile := env.cfg, exitCode := 1 }) := by
  refine ⟨?_, ?_, ?_⟩
  · intro e he
    have hgen : generate env (parseSinceDate env.tz env.now "today") fs0 =
        Except.error e := by
      simp only [generate, he]
    have hred : cliMain ["generate"] env fs0 =
        (match generate env (parseSinceDate env.tz env.now "today") fs0 with
          | Except.ok st => st
          | Except.error e2 =>
            { fileContent := fs0, written := none, messages := [e2],
              promptBuilt := none, geminiCalled := none,
              cfgFile := env.cfg, exitCode := 0 }) := rfl
    rw [hred, hgen]
  · intro pr e hact hd
    obtain ⟨nm, repo, wf⟩ := pr
    simp only [generate, hact, hd]
  · intro pr diffs hact hd hne hexit
    obtain ⟨nm, repo, wf⟩ := pr
    have hlen0 : ¬ diffs.length = 0 := by simpa using hne
    simp only [generate, hact, hd]
    rw [if_neg hlen0]
    simp only [callGemini, if_neg hexit]

/-- C5 witness: the configuration-failure arm of the amended claim at a
concrete registry with no active project. -/
theorem C5_witness :
    cliMain ["generate"] c5env none =
      { fileContent := none, written := none,
        messages := ["No activeProject in config"],
        promptBuilt := none, geminiCalled := none,
        cfgFile := c5cfg, exitCode := 0 } :=
  (C5_failure_reporting c5env "x" none).1 "No activeProject in config" rfl

theorem jsNewDateLocal_ymd_self (tz t : Int) :
    jsNewDateLocal tz (getLocalYMD tz t).1 ((getLocalYMD tz t).2.1 - 1)
      (getLocalYMD tz t).2.2 = localMidnight tz (localDay tz t) := by
  have h := jsNewDateLocal_ymd tz t 0
  simpa using h

theorem jsNewDateLocal_ymd_pred (tz t : Int) :
    jsNewDateLocal tz (getLocalYMD tz t).1 ((getLocalYMD tz t).2.1 - 1)
      ((getLocalYMD tz t).2.2 - 1) = localMidnight tz (localDay tz t - 1) := by
  have h := jsNewDateLocal_ymd tz t (-1)
  rw [show (getLocalYMD tz t).2.2 + (-1) = (getLocalYMD tz t).2.2 - 1 by ring] at h
  rw [show localDay tz t + (-1) = localDay tz t - 1 by ring] at h
  exact h

example : parseSinceDate 300 (20372 * 1440 + 700) "" = "2025-10-10T19:00:00.000Z" := by
  decide

example : parseSinceDate 0 (20372 * 1440 + 700) "YESTERDAY" = "2025-10-10T00:00:00.000Z" := by
  decide

/-- C6: every recognized window token resolves to the instant of local
wall-clock midnight of its date — the current local date for the
empty/absent token and "today" (case-insensitively), the previous local
day for "yesterday", and, for a parseable calendar-date string, the
local calendar date holding the parsed instant with its time-of-day
discarded — serialized through the UTC-qualified `toISOString` form (the
serialization always carries the "Z" zone designator, and the resolved
instant always has a zero local time-of-day component). -/
theorem C6_resolver_recognized (tz now : Int) (input : String) :
    ((input = "" ∨ jsToLower input = "today") →
      parseSinceDate tz now input = toISOString (localMidnight tz (localDay tz now))) ∧
    (jsToLower input = "yesterday" →
      parseSinceDate tz now input = toISOString (localMidnight tz (localDay tz now - 1))) ∧
    (∀ parsed : Int, jsParseDate input = some parsed → input ≠ "" →
      jsToLower input ≠ "today" → jsToLower input ≠ "yesterday" →
      parseSinceDate tz now input = toISOString (localMidnight tz (localDay tz parsed))) ∧
    (∀ day : Int, localMinuteOfDay tz (localMidnight tz day) = 0) ∧
    (∀ t : Int, ∃ stem : String, toISOString t = stem ++ "Z") := by
  refine ⟨?_, ?_, ?_, ?_, fun t => ⟨isoStem t, rfl⟩⟩
  · intro h
    simp only [parseSinceDate]
    rw [if_pos h, jsNewDateLocal_ymd_self]
  · intro h
    have hne : ¬(input = "" ∨ jsToLower input = "today") := by
      rintro (rfl | ht)
      · exact absurd h (by decide)
      · rw [ht] at h
        exact absurd h (by decide)
    simp only [parseSinceDate]
    rw [if_neg hne, if_pos h, jsNewDateLocal_ymd_pred]
  · intro parsed hp hne1 hne2 hne3
    have hcond1 : ¬(input = "" ∨ jsToLower input = "today") := by
      rintro (h | h)
      exacts [hne1 h, hne2 h]
    simp only [parseSinceDate]
    rw [if_neg hcond1, if_neg hne3, hp]
    show toISOString (jsNewDateLocal tz (getLocalYMD tz parsed).1
      ((getLocalYMD tz parsed).2.1 - 1) (getLocalYMD tz parsed).2.2) = _
    rw [jsNewDateLocal_ymd_self]
  · intro day
    simp only [localMinuteOfDay, localMidnight]
    omega

/-- C6 witness: the parsed-date arm at UTC-05:00 with token
"2025-08-01" — the parsed instant is 2025-08-01T00:00Z, whose local
calendar date is 2025-07-31, and the resolver returns that local
midnight (05:00Z), with zero local time-of-day and a "Z"-qualified
serialization. -/
theorem C6_witness :
    parseSinceDate (-300) 0 "2025-08-01" = "2025-07-31T05:00:00.000Z" := by
  have h := (C6_resolver_recognized (-300) 0 "2025-08-01").2.2.1
    (daysFromCivilM1 2025 8 1 * 1440) (by decide) (by decide) (by decide) (by decide)
  rw [h]
  decide

/-- C7 counterexample: "yesterday" is a string token that cannot be
parsed as a calendar date, and the resolver does not map it to the same
value as "today". -/
theorem C7_counterexample :
    jsParseDate "yesterday" = none ∧
    parseSinceDate 0 (20372 * 1440) "yesterday" ≠ parseSinceDate 0 (20372 * 1440) "today" := by
  decide

theorem parseSinceDate_today (tz now : Int) :
    parseSinceDate tz now "today" =
      toISOString (jsNewDateLocal tz (getLocalYMD tz now).1
        ((getLocalYMD tz now).2.1 - 1) (getLocalYMD tz now).2.2) := by
  simp only [parseSinceDate]
  rw [if_pos (Or.inr (by decide))]

/-- C7 (amended): every string token that cannot be parsed as a
calendar date other than the reserved token "yesterday"
(case-insensitively) resolves, without raising an error, to exactly the
value of resolving "today" at the same instant. -/
theorem C7_fallback_is_today (tz now : Int) (input : String)
    (hp : jsParseDate input = none) (hy : jsToLower input ≠ "yesterday") :
    parseSinceDate tz now input = parseSinceDate tz now "today" := by
  rw [parseSinceDate_today]
  by_cases h1 : input = "" ∨ jsToLower input = "today"
  · simp only [parseSinceDate]
    rw [if_pos h1]
  · simp only [parseSinceDate]
    rw [if_neg h1, if_neg hy, hp]

/-- C7 witness: a concrete unparseable token resolves like "today". -/
theorem C7_witness :
    parseSinceDate 120 777777 "not-a-date" = parseSinceDate 120 777777 "today" :=
  C7_fallback_is_today 120 777777 "not-a-date" (by decide) (by decide)

end Worklog
